import Mathlib

/-
Shallow embedding of the ChatSift logs transport (src/src/index.ts and the
LazyIter class) for checking the natural-language specification against the
code.  Pure data is modelled directly; the stateful stream is modelled by
explicit state passing over the list of remaining lines; wall-clock reads
(new Date() with no argument) are modelled by the abstract time point
DTime.now, and new Date(t).toISOString() for an epoch-millisecond number t by
DTime.ofMs t (the ISO rendering itself is an external library call and is
kept symbolic).  JavaScript primitives that are implementation-heavy
(date-string parsing, ToString of objects used as property keys) are taken
as parameters of the embedding, bundled in JsPrims; every theorem quantifies
over them, and witnesses instantiate them concretely.
-/

set_option autoImplicit false

namespace CSLogs

/-- Dates appearing in emitted records: either new Date(t).toISOString() for a
numeric epoch-millisecond value t, or new Date().toISOString() read from the
wall clock.  No claim compares two wall-clock reads, so a single abstract
constructor models all of them. -/
inductive DTime where
  | ofMs (t : Int)
  | now
  deriving DecidableEq, Repr

/-- JavaScript values as they occur in this program: results of JSON.parse
plus the two extra shapes the transport itself produces (date strings are
kept as DTime, and the explicit undefined produced by destructuring absent
properties).  JSON numbers are modelled as integers; the claims only involve
integer times and integer severity codes. -/
inductive Value where
  | num (n : Int)
  | str (s : String)
  | bool (b : Bool)
  | null
  | undef
  | dt (d : DTime)
  | obj (fields : List (String × Value))
  | arr (elems : List Value)
  deriving Repr

/-- A record (a JS object) is its field list in property order.  JSON.parse
produces unique keys; the operations below mimic JS object semantics on such
lists. -/
abbrev Rec := List (String × Value)

abbrev Batch := List Rec

/-- Property read o.k / o[k]: the first binding of the key, or undefined. -/
def lookupV (k : String) (r : Rec) : Value :=
  match r.find? (fun p => p.1 = k) with
  | some p => p.2
  | none => Value.undef

/-- The JS in-operator on an object: does the key occur. -/
def hasKey (k : String) (r : Rec) : Bool :=
  r.any (fun p => p.1 = k)

/-- Object-literal key update, as in a spread followed by an explicit key:
the existing binding of the key is replaced in place, otherwise the binding
is appended at the end.  JS objects, in particular JSON.parse results, have
unique keys, so replacing the first binding is property assignment. -/
def setKey (k : String) (v : Value) : Rec → Rec
  | [] => [(k, v)]
  | (k1, v1) :: r => if k1 = k then (k, v) :: r else (k1, v1) :: setKey k v r

/-- Rest-destructuring that drops one key, as in const (...) = log with name
pulled out. -/
def eraseKey (k : String) (r : Rec) : Rec :=
  r.filter (fun p => p.1 ≠ k)

/-- Rest-destructuring dropping several keys. -/
def eraseKeys (ks : List String) (r : Rec) : Rec :=
  r.filter (fun p => p.1 ∉ ks)

/-- JavaScript truthiness of a value (NaN is not representable in the integer
model; everything else follows the ECMAScript ToBoolean table). -/
def truthy : Value → Bool
  | Value.undef => false
  | Value.null => false
  | Value.bool b => b
  | Value.num n => n ≠ 0
  | Value.str s => s ≠ ""
  | Value.dt _ => true
  | Value.obj _ => true
  | Value.arr _ => true

/-- Implementation-defined JS primitives the embedding is parametric in:
dateParse models new Date(v) for string, object and array arguments
(returning the epoch milliseconds, or none for an Invalid Date, whose
toISOString throws); toKey models ToString of object and array values used
as property keys. -/
structure JsPrims where
  dateParse : Value → Option Int
  toKey : Value → String

/-- The epoch milliseconds denoted by new Date(v), or none when the resulting
date is invalid so that toISOString throws.  A numeric argument is the epoch
value itself, valid exactly within the ECMAScript time range; booleans and
null coerce to 0/1; strings, objects and arrays go through the parametric
primitive. -/
def dateMs (js : JsPrims) : Value → Option Int
  | Value.num n => if n.natAbs ≤ 8640000000000000 then some n else none
  | Value.bool b => some (if b then 1 else 0)
  | Value.null => some 0
  | v => js.dateParse v

/-- LEVELS_MAP lookup for an integer severity code (JS property access with a
number key compares the canonical decimal strings, which for integers agrees
with numeric equality). -/
def levelNameOfNum (n : Int) : String :=
  if n = 60 then "fatal"
  else if n = 50 then "error"
  else if n = 40 then "warn"
  else if n = 30 then "info"
  else if n = 20 then "debug"
  else if n = 10 then "trace"
  else "unknown"

/-- LEVELS_MAP lookup through a string property key, for non-numeric level
values (JS coerces the index to a string; the stored numeric keys read back
as their decimal strings). -/
def levelNameOfKey (k : String) : String :=
  if k = "60" then "fatal"
  else if k = "50" then "error"
  else if k = "40" then "warn"
  else if k = "30" then "info"
  else if k = "20" then "debug"
  else if k = "10" then "trace"
  else "unknown"

/-- LEVELS_MAP[level] ?? unknown, for an arbitrary level value. -/
def levelName (js : JsPrims) : Value → String
  | Value.num n => levelNameOfNum n
  | Value.str s => levelNameOfKey s
  | Value.bool b => levelNameOfKey (if b then "true" else "false")
  | Value.null => levelNameOfKey ("null")
  | Value.undef => levelNameOfKey ("undefined")
  | Value.dt _ => levelNameOfKey ("")
  | v => levelNameOfKey (js.toKey v)

/-- A line of input as the classifier sees it: either text on which
JSON.parse throws, or text that parses to a JS value.  The pairing of the
raw text with its parse result is part of the input model; the program never
re-parses a line. -/
inductive Line where
  | raw (text : String)
  | json (text : String) (v : Value)
  deriving Repr

/-- The original text of the line. -/
def Line.text : Line → String
  | Line.raw t => t
  | Line.json t _ => t

/-- isValidJson from the source: JSON.parse succeeds on the line. -/
def isValidJson : Line → Bool
  | Line.raw _ => false
  | Line.json _ _ => true

/-- A valid structured record in the sense of the glossary of the spec: the
line parses as an object with numeric level and time fields.  This is a
spec-side notion, used to state claims; the source only ever tests
isValidJson. -/
def validStructuredLine : Line → Bool
  | Line.json _ (Value.obj f) =>
      (match lookupV ("time") f with | Value.num _ => true | _ => false)
      && (match lookupV ("level") f with | Value.num _ => true | _ => false)
  | _ => false

/-- Substring containment: splitOn yields more than one part exactly when the
pattern occurs in the string. -/
def containsSub (s pat : String) : Bool :=
  (s.splitOn pat).length ≠ 1

/-- line.toLowerCase().includes with the crash marker, from the source. -/
def hasErrorMarker (s : String) : Bool :=
  containsSub s.toLower ("error: ")

/-- handleLog from the source.  It destructures name out of the record; when
name is truthy it first emits a warn diagnostic embedding the full record,
then pushes the record without name.  The recursive call in the source is on
a diagnostic that itself carries no name, hence is a plain push; that single
level of recursion is unfolded here. -/
def nameWarnRecord (log : Rec) : Rec :=
  [("datetime", Value.dt DTime.now),
   ("level", Value.str ("warn")),
   ("message", Value.str ("Log has a name field, but that should be handled by the transport alone, ignoring")),
   ("log", Value.obj log)]

def handleLog (log : Rec) (b : Batch) : Batch :=
  let rest := eraseKey ("name") log
  if truthy (lookupV ("name") log) then
    (b ++ [eraseKey ("name") (nameWarnRecord log)]) ++ [rest]
  else
    b ++ [rest]

/-- handleInvalid from the source: a warn diagnostic naming the missing
required field and embedding the parsed value. -/
def invalidRecord (v : Value) (field : String) : Rec :=
  [("datetime", Value.dt DTime.now),
   ("level", Value.str ("warn")),
   ("message", Value.str ("Invalid log line, missing " ++ field ++ " field")),
   ("log", v)]

def handleInvalid (v : Value) (field : String) (b : Batch) : Batch :=
  handleLog (invalidRecord v field) b

/-- The lookahead loop of the crash path: peekAnd with the negation of
isValidJson, consuming while the peeked line does not parse, stopping at the
first line that parses as JSON or at the end of the stream.  Returns the
consumed fragment lines and the remaining stream. -/
def collectRun : List Line → List Line × List Line
  | [] => ([], [])
  | l :: ls =>
      if isValidJson l then ([], l :: ls)
      else
        let r := collectRun ls
        (l :: r.1, r.2)

/-- The sentinel message of a synthesized crash record. -/
def crashSentinel : String := "[unable to infer due to this being a hard crash]"

/-- The fatal record synthesized for a crash run with the given joined
stack. -/
def crashRecord (stack : String) : Rec :=
  [("level", Value.str ("fatal")),
   ("datetime", Value.dt DTime.now),
   ("message", Value.str crashSentinel),
   ("error", Value.obj
      [("type", Value.str crashSentinel),
       ("message", Value.str crashSentinel),
       ("stack", Value.str stack)])]

/-- The catch branch of handleLine: collect the run of unparseable lines
after the current one, then either drop the run silently (no fragment holds
the marker) or synthesize one fatal record.  Either way the consumed lines
stay consumed. -/
def crashPath (text : String) (rest : List Line) (b : Batch) :
    Batch × List Line :=
  let r := collectRun rest
  let stackParts := text :: r.1.map Line.text
  (if stackParts.any hasErrorMarker then
     handleLog (crashRecord (String.intercalate ("\n") stackParts)) b
   else b,
   r.2)

/-- The record built on the success path of handleLine: the rest fields of
the source object, then message, error, datetime and level set as in the
object literal of the source. -/
def buildFinal (js : JsPrims) (f : Rec) (ms : Int) : Rec :=
  setKey ("level") (Value.str (levelName js (lookupV ("level") f)))
    (setKey ("datetime") (Value.dt (DTime.ofMs ms))
      (setKey ("error") (lookupV ("err") f)
        (setKey ("message") (lookupV ("msg") f)
          (eraseKeys [("msg" : String), "time", "err", "level"] f))))

/-- handleLine from the source, over the remaining stream and the batch.
A raw line enters the catch branch directly.  A parsed primitive (number,
string, boolean, null) also enters it, because the in-operator throws a
TypeError on non-objects, caught by the same catch.  An array reaches the
in-checks, where the time key is absent.  For objects: missing time or level
goes to handleInvalid; an invalid date (toISOString throwing) falls into the
catch branch; otherwise the normalized record is built and logged. -/
def handleLine (js : JsPrims) (line : Line) (rest : List Line) (b : Batch) :
    Batch × List Line :=
  match line with
  | Line.raw text => crashPath text rest b
  | Line.json text v =>
      match v with
      | Value.obj f =>
          if hasKey ("time") f = false then (handleInvalid (Value.obj f) ("time") b, rest)
          else if hasKey ("level") f = false then (handleInvalid (Value.obj f) ("level") b, rest)
          else
            match dateMs js (lookupV ("time") f) with
            | none => crashPath text rest b
            | some ms => (handleLog (buildFinal js f ms) b, rest)
      | Value.arr _ => (handleInvalid v ("time") b, rest)
      | _ => crashPath text rest b

/-- State of a LazyIter: the private done flag set when the underlying
source signals completion, the reading flag of the pull loop, and the buffer
of not-yet-consumed items.  The two waiter queues only matter on the
suspending paths, which are modelled as explicit wait outcomes below. -/
structure IterState (T : Type) where
  doneFlag : Bool
  reading : Bool
  buffer : List T

/-- The done getter: the producer has finished and the buffer is drained. -/
def IterState.isDone {T : Type} (s : IterState T) : Bool :=
  s.doneFlag && s.buffer.isEmpty

inductive PeekOutcome (T : Type) where
  | ret (x : Option T)
  | wait
  deriving Repr

/-- peek from the source: returns undefined immediately when fully done,
suspends on an empty buffer, and otherwise returns the head of the buffer.
It never writes any field, so the state component of the result is the input
state. -/
def IterState.peek {T : Type} (s : IterState T) : PeekOutcome T × IterState T :=
  if s.isDone then (PeekOutcome.ret none, s)
  else if s.buffer.isEmpty then (PeekOutcome.wait, s)
  else (PeekOutcome.ret s.buffer.head?, s)

inductive NextOutcome (T : Type) where
  | thrown (msg : String)
  | ret (x : T)
  | wait
  deriving Repr

/-- next from the source: throws the exhausted-stream error when fully done,
suspends on an empty buffer, and otherwise shifts the oldest item off the
buffer. -/
def IterState.next {T : Type} (s : IterState T) : NextOutcome T × IterState T :=
  if s.isDone then (NextOutcome.thrown ("No more items to consume"), s)
  else
    match s.buffer with
    | [] => (NextOutcome.wait, s)
    | x :: xs => (NextOutcome.ret x, { s with buffer := xs })

/-- The pull loop appending transformed items to the buffer. -/
def IterState.onItems {T : Type} (items : List T) (s : IterState T) : IterState T :=
  { s with buffer := s.buffer ++ items }

/-- The pull loop observing completion of the underlying source: the done
flag is set and reading stops (outstanding waiters are released, which the
outcome model represents at the call sites). -/
def IterState.onSourceDone {T : Type} (s : IterState T) : IterState T :=
  { s with doneFlag := true, reading := false }

/-- Environment of one flush call: the sink response status, the parsed
failure response body, the records appended by the concurrently running
driver loop while the sink request is in flight, the outcome of the webhook
call with the caught error fields, and the records appended while the
webhook call is in flight. -/
structure FlushEnv where
  status : Int
  response : Value
  duringReq : List Rec
  discordOk : Bool
  discordErrName : String
  discordErrMessage : String
  discordErrStack : String
  duringDiscord : List Rec

/-- The fatal diagnostic handleLog receives on a non-success sink response. -/
def flushFailRecord (env : FlushEnv) : Rec :=
  [("datetime", Value.dt DTime.now),
   ("level", Value.str ("fatal")),
   ("message", Value.str ("Failed to send logs to Parseable, got status code " ++ toString env.status)),
   ("statusCode", Value.num env.status),
   ("response", env.response)]

/-- The warn diagnostic handleLog receives when the webhook call throws. -/
def discordFailRecord (env : FlushEnv) : Rec :=
  [("datetime", Value.dt DTime.now),
   ("level", Value.str ("warn")),
   ("message", Value.str ("Failed to send fatal logs to Discord")),
   ("error", Value.obj
      [("message", Value.str env.discordErrMessage),
       ("type", Value.str env.discordErrName),
       ("stack", Value.str env.discordErrStack)])]

/-- The filter of the notification step: strict string comparison of the
level field against fatal and error, as in the source. -/
def isAlertLevel (r : Rec) : Bool :=
  match lookupV ("level") r with
  | Value.str s => s = "fatal" || s = "error"
  | _ => false

/-- flush from the source, returning the batch submitted to the sink (none
when the empty-buffer early return fires) and the final content of the batch
buffer.  The snapshot is serialized before the request is awaited; records
appended during the awaits land in the live buffer; on a non-success status
the fatal diagnostic is appended; the notification filter then runs over the
live buffer; finally splice(0, length) removes every element present at that
point. -/
def flush (env : FlushEnv) (b : Batch) : Option Batch × Batch :=
  if b.isEmpty then (none, b)
  else
    let submitted := b
    let afterReq := b ++ env.duringReq
    let afterStatus :=
      if env.status ≠ 200 then handleLog (flushFailRecord env) afterReq else afterReq
    let errors := afterStatus.filter isAlertLevel
    let afterNotify :=
      if errors.isEmpty then afterStatus
      else
        let d := afterStatus ++ env.duringDiscord
        if env.discordOk then d else handleLog (discordFailRecord env) d
    (some submitted, afterNotify.drop afterNotify.length)

/-- The driver loop: pull the next line, hand it to handleLine (which may
consume further lines through lookahead), repeat until the stream is
exhausted. -/
def runLines (js : JsPrims) : List Line → Batch → Batch
  | [], b => b
  | l :: ls, b => runLines js (handleLine js l ls b).2 (handleLine js l ls b).1
termination_by ls _ => ls.length
decreasing_by
  have hc : ∀ xs : List Line, (collectRun xs).2.length ≤ xs.length := by
    intro xs
    induction xs with
    | nil => simp [collectRun]
    | cons x xs ih =>
        by_cases hx : isValidJson x
        · simp [collectRun, hx]
        · simp only [collectRun, hx, Bool.false_eq_true, if_false]
          exact Nat.le_succ_of_le ih
  have hh : (handleLine js l ls b).2.length ≤ ls.length := by
    cases l with
    | raw t => simpa [handleLine, crashPath] using hc ls
    | json t v =>
        cases v with
        | obj f =>
            simp only [handleLine]
            split
            · simp
            · split
              · simp
              · split
                · simpa [crashPath] using hc ls
                · simp
        | arr es => simp [handleLine]
        | num n => simpa [handleLine, crashPath] using hc ls
        | str s => simpa [handleLine, crashPath] using hc ls
        | bool c => simpa [handleLine, crashPath] using hc ls
        | null => simpa [handleLine, crashPath] using hc ls
        | undef => simpa [handleLine, crashPath] using hc ls
        | dt d => simpa [handleLine, crashPath] using hc ls
  simp only [List.length_cons]
  exact Nat.lt_succ_of_le hh

/-- A concrete instantiation of the implementation-defined JS primitives,
used to evaluate the model at concrete inputs: date strings never parse and
object-to-string is constant. -/
def js0 : JsPrims := ⟨fun _ => none, fun _ => ""⟩

/-- A concrete normalized info record, for closed evaluations. -/
def rOne : Rec :=
  [("datetime", Value.dt DTime.now), ("level", Value.str ("info")), ("message", Value.str ("one"))]

/-- A second concrete normalized info record, distinct from rOne. -/
def rTwo : Rec :=
  [("datetime", Value.dt DTime.now), ("level", Value.str ("info")), ("message", Value.str ("two"))]

/-- The record invariant of the spec: a datetime field and a level field are
present and the reserved name field is absent. -/
def recOk (r : Rec) : Bool :=
  hasKey ("datetime") r && hasKey ("level") r && !(hasKey ("name") r)

/-- The invariant over the whole batch buffer. -/
def InvBatch (b : Batch) : Bool :=
  b.all recOk

/-- A concrete record whose name field is present but falsy. -/
def cFalsyName : Rec :=
  [("datetime", Value.dt DTime.now), ("level", Value.str ("info")), ("name", Value.str (""))]

/-- A concrete parsed object lacking the time field. -/
def cMissingTime : Rec :=
  [("level", Value.num 30)]

/-- The parsed object of the scenario line of the spec. -/
def cBoomObj : Rec :=
  [("time", Value.num 1690000000000), ("level", Value.num 50), ("msg", Value.str ("boom"))]

/-- A concrete parsed object carrying both a truthy name field and a source
datetime field. -/
def cNameObj : Rec :=
  [("time", Value.num 0), ("level", Value.num 50),
   ("name", Value.str ("x")), ("datetime", Value.str ("fake"))]

/-- A concrete valid structured line, for witnesses. -/
def cValidLine : Line :=
  Line.json ("rec") (Value.obj [("time", Value.num 0), ("level", Value.num 30)])

theorem lookupV_cons (k k1 : String) (v1 : Value) (r : Rec) :
    lookupV k ((k1, v1) :: r) = if k1 = k then v1 else lookupV k r := by
  by_cases h : k1 = k
  · simp [lookupV, List.find?_cons, h]
  · simp [lookupV, List.find?_cons, h]

theorem hasKey_cons (k k1 : String) (v1 : Value) (r : Rec) :
    hasKey k ((k1, v1) :: r) = (decide (k1 = k) || hasKey k r) := by
  simp [hasKey, List.any_cons]

theorem eraseKey_cons (k k1 : String) (v1 : Value) (r : Rec) :
    eraseKey k ((k1, v1) :: r)
      = if k1 = k then eraseKey k r else (k1, v1) :: eraseKey k r := by
  by_cases h : k1 = k
  · simp [eraseKey, List.filter_cons, h]
  · simp [eraseKey, List.filter_cons, h]

theorem eraseKeys_cons (ks : List String) (k1 : String) (v1 : Value) (r : Rec) :
    eraseKeys ks ((k1, v1) :: r)
      = if k1 ∈ ks then eraseKeys ks r else (k1, v1) :: eraseKeys ks r := by
  by_cases h : k1 ∈ ks
  · simp [eraseKeys, List.filter_cons, h]
  · simp [eraseKeys, List.filter_cons, h]

theorem lookupV_setKey (k k2 : String) (v : Value) (r : Rec) :
    lookupV k2 (setKey k v r) = if k = k2 then v else lookupV k2 r := by
  induction r with
  | nil => by_cases h : k = k2 <;> simp [setKey, lookupV_cons, lookupV, h]
  | cons p r ih =>
      obtain ⟨k1, v1⟩ := p
      by_cases h1 : k1 = k
      · subst h1
        by_cases h2 : k1 = k2 <;> simp [setKey, lookupV_cons, h2]
      · by_cases h2 : k1 = k2
        · have hne : ¬ k = k2 := fun hx => h1 (hx.trans h2.symm).symm
          have hne2 : ¬ k2 = k := fun hx => h1 (h2.trans hx)
          simp [setKey, h1, lookupV_cons, h2, hne, hne2]
        · simp [setKey, h1, lookupV_cons, h2, ih]

theorem hasKey_setKey (k k2 : String) (v : Value) (r : Rec) :
    hasKey k2 (setKey k v r) = (hasKey k2 r || decide (k = k2)) := by
  induction r with
  | nil => simp [setKey, hasKey_cons, hasKey]
  | cons p r ih =>
      obtain ⟨k1, v1⟩ := p
      by_cases h1 : k1 = k
      · subst h1
        by_cases h2 : k1 = k2 <;> simp [setKey, hasKey_cons, h2]
      · by_cases h2 : k1 = k2
        · have hne2 : ¬ k2 = k := fun hx => h1 (h2.trans hx)
          simp [setKey, h1, hasKey_cons, h2, hne2]
        · simp [setKey, h1, hasKey_cons, h2, ih, Bool.or_assoc]

theorem lookupV_eraseKey_ne (k k2 : String) (r : Rec) (h : k ≠ k2) :
    lookupV k (eraseKey k2 r) = lookupV k r := by
  induction r with
  | nil => rfl
  | cons p r ih =>
      obtain ⟨k1, v1⟩ := p
      by_cases h1 : k1 = k2
      · subst h1
        have hne : ¬ k1 = k := fun hx => h hx.symm
        simp [eraseKey_cons, lookupV_cons, hne, ih]
      · simp [eraseKey_cons, h1, lookupV_cons, ih]

theorem hasKey_eraseKey_self (k : String) (r : Rec) :
    hasKey k (eraseKey k r) = false := by
  induction r with
  | nil => rfl
  | cons p r ih =>
      obtain ⟨k1, v1⟩ := p
      by_cases h1 : k1 = k
      · simp [eraseKey_cons, h1, ih]
      · simp [eraseKey_cons, h1, hasKey_cons, ih]

theorem hasKey_eraseKey_ne (k k2 : String) (r : Rec) (h : k ≠ k2) :
    hasKey k (eraseKey k2 r) = hasKey k r := by
  induction r with
  | nil => rfl
  | cons p r ih =>
      obtain ⟨k1, v1⟩ := p
      by_cases h1 : k1 = k2
      · subst h1
        have hne : ¬ k1 = k := fun hx => h hx.symm
        simp [eraseKey_cons, hasKey_cons, hne, ih]
      · simp [eraseKey_cons, h1, hasKey_cons, ih]

theorem lookupV_eraseKeys_notMem (k : String) (ks : List String) (r : Rec) (h : k ∉ ks) :
    lookupV k (eraseKeys ks r) = lookupV k r := by
  induction r with
  | nil => rfl
  | cons p r ih =>
      obtain ⟨k1, v1⟩ := p
      by_cases h1 : k1 ∈ ks
      · have : ¬ k1 = k := fun hx => h (hx ▸ h1)
        simp [eraseKeys_cons, h1, lookupV_cons, this, ih]
      · simp [eraseKeys_cons, h1, lookupV_cons, ih]

theorem hasKey_of_lookupV_ne_undef (k : String) (r : Rec)
    (h : lookupV k r ≠ Value.undef) : hasKey k r = true := by
  induction r with
  | nil => exact absurd rfl h
  | cons p r ih =>
      obtain ⟨k1, v1⟩ := p
      by_cases h1 : k1 = k
      · simp [hasKey_cons, h1]
      · rw [lookupV_cons, if_neg h1] at h
        simp [hasKey_cons, h1, ih h]

theorem handleLog_push (log : Rec) (b : Batch)
    (h : truthy (lookupV ("name") log) = false) :
    handleLog log b = b ++ [eraseKey ("name") log] := by
  simp [handleLog, h]

theorem handleLog_push_warn (log : Rec) (b : Batch)
    (h : truthy (lookupV ("name") log) = true) :
    handleLog log b
      = b ++ [eraseKey ("name") (nameWarnRecord log), eraseKey ("name") log] := by
  simp [handleLog, h]

theorem eraseKey_nameWarnRecord (log : Rec) :
    eraseKey ("name") (nameWarnRecord log) = nameWarnRecord log := rfl

theorem collectRun_raw_stop (ts : List String) (l : Line) (r : List Line)
    (h : isValidJson l = true) :
    collectRun (ts.map Line.raw ++ (l :: r)) = (ts.map Line.raw, l :: r) := by
  induction ts with
  | nil => simp [collectRun, h]
  | cons t ts ih => simp [collectRun, isValidJson, ih]

theorem validStructured_isValidJson (l : Line) (h : validStructuredLine l = true) :
    isValidJson l = true := by
  cases l with
  | raw t => simp [validStructuredLine] at h
  | json t v => rfl

theorem InvBatch_append (a c : Batch) :
    InvBatch (a ++ c) = (InvBatch a && InvBatch c) := by
  simp [InvBatch, List.all_append]

theorem recOk_eraseKey_name (log : Rec)
    (hd : hasKey ("datetime") log = true) (hl : hasKey ("level") log = true) :
    recOk (eraseKey ("name") log) = true := by
  have h1 : ("datetime" : String) ≠ "name" := by decide
  have h2 : ("level" : String) ≠ "name" := by decide
  simp [recOk, hasKey_eraseKey_ne _ _ _ h1, hasKey_eraseKey_ne _ _ _ h2,
    hasKey_eraseKey_self, hd, hl]

theorem handleLog_invBatch (log : Rec) (b : Batch)
    (hd : hasKey ("datetime") log = true) (hl : hasKey ("level") log = true)
    (hb : InvBatch b = true) :
    InvBatch (handleLog log b) = true := by
  by_cases h : truthy (lookupV ("name") log) = true
  · rw [handleLog_push_warn log b h, InvBatch_append, hb]
    have hw : recOk (eraseKey ("name") (nameWarnRecord log)) = true := rfl
    simp [InvBatch, hw, recOk_eraseKey_name log hd hl]
  · rw [handleLog_push log b (by simpa using h), InvBatch_append, hb]
    simp [InvBatch, recOk_eraseKey_name log hd hl]

theorem runLines_cons (js : JsPrims) (l : Line) (ls : List Line) (b : Batch) :
    runLines js (l :: ls) b
      = runLines js (handleLine js l ls b).2 (handleLine js l ls b).1 := by
  rw [runLines]

/-- C1: the claim states that after a flush whose sink submission returns a
non-success status, the batch buffer holds exactly one new fatal diagnostic
and none of the original records.  The code appends the fatal diagnostic
before the final splice, and the splice then clears the whole live buffer,
diagnostic included: at a concrete failing input (one info record, status
500, no concurrent appends) the buffer after the flush is empty, even though
the diagnostic the code constructs is fatal-level. -/
theorem c1_flush_failure_discards_diagnostic :
    flush ⟨500, Value.null, [], true, "", "", "", []⟩ [rOne] = (some [rOne], [])
    ∧ lookupV ("level") (flushFailRecord ⟨500, Value.null, [], true, "", "", "", []⟩)
        = Value.str ("fatal") :=
  ⟨rfl, rfl⟩

/-- C2: the claim states the set of records removed by a flush equals the
submitted snapshot, so a record appended after the snapshot lands in the
next batch.  In the code the snapshot is serialized first but the splice at
the end clears the whole live buffer: at a concrete input where rTwo is
appended while the request is in flight, the submitted batch is only rOne,
yet the final buffer is empty, so rTwo was removed without ever being
submitted. -/
theorem c2_concurrent_append_lost :
    flush ⟨200, Value.null, [rTwo], true, "", "", "", []⟩ [rOne] = (some [rOne], [])
    ∧ rTwo ∉ [rOne] :=
  ⟨rfl, by simp [rOne, rTwo]⟩

/-- C4 counterexample: the claim states the lookahead scan consumes a peeked
line if and only if it is not a valid structured record (an object with
numeric level and time).  A line parsing as the empty object is not a valid
structured record, yet the scan stops and leaves it unconsumed, because the
source only tests isValidJson. -/
theorem c4_scan_stops_at_nonstructured_json :
    validStructuredLine (Line.json ("\x7b\x7d") (Value.obj [])) = false
    ∧ collectRun [Line.json ("\x7b\x7d") (Value.obj [])]
        = ([], [Line.json ("\x7b\x7d") (Value.obj [])]) :=
  ⟨rfl, rfl⟩

/-- C4 amended: the lookahead scan consumes a peeked line if and only if the
line does not parse as JSON at all, and stops at the first JSON-parseable
line, even when that line lacks the level and time fields of a valid
structured record. -/
theorem c4_scan_consumes_iff_unparseable (ls : List Line) :
    collectRun ls
      = (ls.takeWhile (fun l => !(isValidJson l)),
         ls.dropWhile (fun l => !(isValidJson l))) := by
  induction ls with
  | nil => rfl
  | cons l ls ih =>
      cases hl : isValidJson l <;>
        simp [collectRun, hl, List.takeWhile_cons, List.dropWhile_cons, ih]

/-- C8: with a non-empty buffer, peek returns the oldest buffered item, does
not change the state, and a second peek without an intervening next returns
the same item again. -/
theorem c8_peek_twice_same (T : Type) (fl rd : Bool) (x : T) (xs : List T) :
    IterState.peek (⟨fl, rd, x :: xs⟩ : IterState T)
      = (PeekOutcome.ret (some x), (⟨fl, rd, x :: xs⟩ : IterState T))
    ∧ IterState.peek (IterState.peek (⟨fl, rd, x :: xs⟩ : IterState T)).2
        = IterState.peek (⟨fl, rd, x :: xs⟩ : IterState T) := by
  constructor <;> simp [IterState.peek, IterState.isDone]

/-- C9: next on a fully done stream (producer complete, buffer empty) throws
the exhausted-stream error; the done query holds exactly when the producer
has completed and the buffer is drained, so completion alone leaves done
equal to whether the buffer is already empty. -/
theorem c9_next_exhausted_done_query (T : Type) (fl rd rd2 : Bool) (buf : List T) :
    (IterState.next (⟨true, rd, ([] : List T)⟩ : IterState T)).1
        = NextOutcome.thrown ("No more items to consume")
    ∧ ((⟨fl, rd2, buf⟩ : IterState T).isDone = true ↔ (fl = true ∧ buf = []))
    ∧ (IterState.onSourceDone (⟨fl, rd2, buf⟩ : IterState T)).isDone = buf.isEmpty := by
  refine ⟨?_, ?_, ?_⟩
  · simp [IterState.next, IterState.isDone]
  · simp [IterState.isDone, List.isEmpty_iff]
  · simp [IterState.onSourceDone, IterState.isDone]

/-- C10: a record whose name field is present but falsy is appended with the
name binding stripped, and no warn diagnostic is emitted: the reserved-field
warning triggers on truthiness of the value, not on presence of the key. -/
theorem c10_falsy_name_stripped_no_warn (log : Rec) (b : Batch)
    (_hp : hasKey ("name") log = true)
    (hf : truthy (lookupV ("name") log) = false) :
    handleLog log b = b ++ [eraseKey ("name") log]
    ∧ hasKey ("name") (eraseKey ("name") log) = false :=
  ⟨handleLog_push log b hf, hasKey_eraseKey_self _ _⟩

/-- Witness for C10 at a concrete record with an empty-string name. -/
theorem c10_falsy_name_stripped_no_warn_witness :
    hasKey ("name") cFalsyName = true
    ∧ truthy (lookupV ("name") cFalsyName) = false
    ∧ (handleLog cFalsyName [] = [] ++ [eraseKey ("name") cFalsyName]
       ∧ hasKey ("name") (eraseKey ("name") cFalsyName) = false) :=
  ⟨rfl, rfl, c10_falsy_name_stripped_no_warn cFalsyName [] rfl rfl⟩

/-- C6: a line parsing as an object that lacks the time field or the level
field produces exactly one warn diagnostic naming the missing field and
embedding the parsed object, and no primary record; the stream is not
advanced by lookahead. -/
theorem c6_missing_field_diagnostic (js : JsPrims) (s : String) (f : Rec)
    (rest : List Line) (b : Batch)
    (h : hasKey ("time") f = false ∨ hasKey ("level") f = false) :
    handleLine js (Line.json s (Value.obj f)) rest b
      = (b ++ [invalidRecord (Value.obj f) (if hasKey ("time") f then "level" else "time")],
         rest)
    ∧ lookupV ("level")
        (invalidRecord (Value.obj f) (if hasKey ("time") f then "level" else "time"))
        = Value.str ("warn")
    ∧ lookupV ("log")
        (invalidRecord (Value.obj f) (if hasKey ("time") f then "level" else "time"))
        = Value.obj f
    ∧ lookupV ("message")
        (invalidRecord (Value.obj f) (if hasKey ("time") f then "level" else "time"))
        = Value.str ("Invalid log line, missing "
            ++ (if hasKey ("time") f then "level" else "time") ++ " field") := by
  have hpush : ∀ (v : Value) (fld : String),
      handleInvalid v fld b = b ++ [invalidRecord v fld] := by
    intro v fld
    show handleLog (invalidRecord v fld) b = _
    rw [handleLog_push (invalidRecord v fld) b rfl]
    rfl
  refine ⟨?_, rfl, rfl, rfl⟩
  by_cases ht : hasKey ("time") f = false
  · have hfld : (if hasKey ("time") f then ("level" : String) else "time") = "time" := by
      simp [ht]
    simp [handleLine, ht, hpush, hfld]
  · have ht2 : hasKey ("time") f = true := by
      cases hx : hasKey ("time") f
      · exact absurd hx ht
      · rfl
    have hlv : hasKey ("level") f = false := h.resolve_left (by simp [ht2])
    have hfld : (if hasKey ("time") f then ("level" : String) else "time") = "level" := by
      simp [ht2]
    simp [handleLine, ht2, hlv, hpush, hfld]

/-- Witness for C6 at a concrete object lacking the time field. -/
theorem c6_missing_field_diagnostic_witness :
    (hasKey ("time") cMissingTime = false ∨ hasKey ("level") cMissingTime = false)
    ∧ (handleLine js0 (Line.json ("t") (Value.obj cMissingTime)) [] []
        = ([] ++ [invalidRecord (Value.obj cMissingTime)
              (if hasKey ("time") cMissingTime then "level" else "time")],
           [])
       ∧ lookupV ("level")
           (invalidRecord (Value.obj cMissingTime)
             (if hasKey ("time") cMissingTime then "level" else "time"))
           = Value.str ("warn")
       ∧ lookupV ("log")
           (invalidRecord (Value.obj cMissingTime)
             (if hasKey ("time") cMissingTime then "level" else "time"))
           = Value.obj cMissingTime
       ∧ lookupV ("message")
           (invalidRecord (Value.obj cMissingTime)
             (if hasKey ("time") cMissingTime then "level" else "time"))
           = Value.str ("Invalid log line, missing "
               ++ (if hasKey ("time") cMissingTime then "level" else "time") ++ " field")) :=
  ⟨Or.inl rfl, c6_missing_field_diagnostic js0 ("t") cMissingTime [] [] (Or.inl rfl)⟩

/-- C3: a run of unparseable lines followed by a valid structured line: the
lookahead consumes exactly the run and leaves the valid line unconsumed; if
no fragment carries the case-insensitive marker, no record is emitted for
the run, otherwise exactly one fatal record whose error stack is the
fragments joined by newline in arrival order; either way the driver then
processes the valid line as its own record. -/
theorem c3_crash_run_reassembly (js : JsPrims) (t0 : String) (ts : List String)
    (v : Line) (r : List Line) (b : Batch)
    (hv : validStructuredLine v = true) :
    handleLine js (Line.raw t0) (ts.map Line.raw ++ v :: r) b
      = (if (t0 :: ts).any hasErrorMarker
           then b ++ [crashRecord (String.intercalate ("\n") (t0 :: ts))] else b,
         v :: r)
    ∧ runLines js (Line.raw t0 :: (ts.map Line.raw ++ v :: r)) b
      = runLines js (v :: r)
          (if (t0 :: ts).any hasErrorMarker
             then b ++ [crashRecord (String.intercalate ("\n") (t0 :: ts))] else b)
    ∧ lookupV ("level") (crashRecord (String.intercalate ("\n") (t0 :: ts)))
        = Value.str ("fatal")
    ∧ lookupV ("error") (crashRecord (String.intercalate ("\n") (t0 :: ts)))
        = Value.obj
            [("type", Value.str crashSentinel),
             ("message", Value.str crashSentinel),
             ("stack", Value.str (String.intercalate ("\n") (t0 :: ts)))] := by
  have hjson : isValidJson v = true := validStructured_isValidJson v hv
  have hcr : collectRun (ts.map Line.raw ++ (v :: r)) = (ts.map Line.raw, v :: r) :=
    collectRun_raw_stop ts v r hjson
  have hmap : (ts.map Line.raw).map Line.text = ts := by
    rw [List.map_map]
    show List.map (fun t => t) ts = ts
    exact List.map_id' ts
  have h1 : handleLine js (Line.raw t0) (ts.map Line.raw ++ v :: r) b
      = (if (t0 :: ts).any hasErrorMarker
           then b ++ [crashRecord (String.intercalate ("\n") (t0 :: ts))] else b,
         v :: r) := by
    show crashPath t0 (ts.map Line.raw ++ v :: r) b = _
    rw [crashPath, hcr]
    simp only [hmap]
    rw [handleLog_push (crashRecord (String.intercalate ("\n") (t0 :: ts))) b rfl]
    rfl
  refine ⟨h1, ?_, rfl, rfl⟩
  rw [runLines_cons, h1]

/-- Witness for C3 at a concrete two-line crash run carrying the marker,
followed by a valid structured line. -/
theorem c3_crash_run_reassembly_witness :
    validStructuredLine cValidLine = true
    ∧ (handleLine js0 (Line.raw ("Error: boom")) (["  at x"].map Line.raw ++ cValidLine :: []) []
        = (if (("Error: boom") :: ["  at x"]).any hasErrorMarker
             then [] ++ [crashRecord (String.intercalate ("\n") (("Error: boom") :: ["  at x"]))]
             else [],
           cValidLine :: [])
       ∧ runLines js0 (Line.raw ("Error: boom") :: (["  at x"].map Line.raw ++ cValidLine :: [])) []
          = runLines js0 (cValidLine :: [])
              (if (("Error: boom") :: ["  at x"]).any hasErrorMarker
                 then [] ++ [crashRecord (String.intercalate ("\n") (("Error: boom") :: ["  at x"]))]
                 else [])
       ∧ lookupV ("level") (crashRecord (String.intercalate ("\n") (("Error: boom") :: ["  at x"])))
           = Value.str ("fatal")
       ∧ lookupV ("error") (crashRecord (String.intercalate ("\n") (("Error: boom") :: ["  at x"])))
           = Value.obj
               [("type", Value.str crashSentinel),
                ("message", Value.str crashSentinel),
                ("stack", Value.str (String.intercalate ("\n") (("Error: boom") :: ["  at x"])))]) :=
  ⟨rfl, c3_crash_run_reassembly js0 ("Error: boom") ["  at x"] cValidLine [] [] rfl⟩

/-- C7: every record placed into the batch buffer has a datetime field and a
level field, and the reserved name field never appears in an emitted record:
handleLog preserves the batch invariant for any input record carrying
datetime and level, handleLine preserves it for any line, and flush
preserves it for any environment. -/
theorem c7_batch_invariant (js : JsPrims) (l : Line) (ls : List Line)
    (env : FlushEnv) (log : Rec) (b : Batch)
    (hd : hasKey ("datetime") log = true) (hl : hasKey ("level") log = true)
    (hb : InvBatch b = true) :
    InvBatch (handleLog log b) = true
    ∧ InvBatch (handleLine js l ls b).1 = true
    ∧ InvBatch (flush env b).2 = true := by
  have hcrash : ∀ (t : String) (rest : List Line), InvBatch (crashPath t rest b).1 = true := by
    intro t rest
    rw [crashPath]
    by_cases hm :
        ((t :: (collectRun rest).1.map Line.text).any hasErrorMarker) = true
    · simp only [hm, if_true]
      exact handleLog_invBatch
        (crashRecord (String.intercalate ("\n") (t :: (collectRun rest).1.map Line.text)))
        b rfl rfl hb
    · simp only [hm, if_false]
      exact hb
  refine ⟨handleLog_invBatch log b hd hl hb, ?_, ?_⟩
  · cases l with
    | raw t => exact hcrash t ls
    | json t v =>
        cases v with
        | obj f =>
            show InvBatch
              (if hasKey ("time") f = false then (handleInvalid (Value.obj f) ("time") b, ls)
               else if hasKey ("level") f = false then (handleInvalid (Value.obj f) ("level") b, ls)
               else match dateMs js (lookupV ("time") f) with
                 | none => crashPath t ls b
                 | some ms => (handleLog (buildFinal js f ms) b, ls)).1 = true
            by_cases h1 : hasKey ("time") f = false
            · simp only [h1, if_true]
              exact handleLog_invBatch (invalidRecord (Value.obj f) ("time")) b rfl rfl hb
            · simp only [h1, if_false]
              by_cases h2 : hasKey ("level") f = false
              · simp only [h2, if_true]
                exact handleLog_invBatch (invalidRecord (Value.obj f) ("level")) b rfl rfl hb
              · simp only [h2, if_false]
                cases hdm : dateMs js (lookupV ("time") f) with
                | none => simp only [hdm]; exact hcrash t ls
                | some ms =>
                    simp only [hdm]
                    have hdt : hasKey ("datetime") (buildFinal js f ms) = true := by
                      rw [buildFinal, hasKey_setKey, hasKey_setKey]
                      simp
                    have hlv : hasKey ("level") (buildFinal js f ms) = true := by
                      rw [buildFinal, hasKey_setKey]
                      simp
                    exact handleLog_invBatch _ b hdt hlv hb
        | arr es =>
            exact handleLog_invBatch (invalidRecord (Value.arr es) ("time")) b rfl rfl hb
        | num n1 => exact hcrash t ls
        | str s1 => exact hcrash t ls
        | bool b1 => exact hcrash t ls
        | null => exact hcrash t ls
        | undef => exact hcrash t ls
        | dt d1 => exact hcrash t ls
  · by_cases hbe : b.isEmpty
    · simp [flush, hbe, hb]
    · simp [flush, hbe, List.drop_length, InvBatch]

/-- Witness for C7 at a concrete record, line, environment and empty batch. -/
theorem c7_batch_invariant_witness :
    hasKey ("datetime") rOne = true
    ∧ hasKey ("level") rOne = true
    ∧ InvBatch ([] : Batch) = true
    ∧ (InvBatch (handleLog rOne []) = true
       ∧ InvBatch (handleLine js0 (Line.raw ("x")) [] []).1 = true
       ∧ InvBatch (flush ⟨500, Value.null, [], true, "", "", "", []⟩ []).2 = true) :=
  ⟨rfl, rfl, rfl,
   c7_batch_invariant js0 (Line.raw ("x")) [] ⟨500, Value.null, [], true, "", "", "", []⟩
     rOne [] rfl rfl rfl⟩

/-- C5 counterexample: the claim states every field other than msg, time,
err, level is carried through unchanged.  At a concrete object carrying a
truthy name and a source datetime field, the emitted primary record has no
name binding and its datetime is the converted time, not the source value;
moreover two records are emitted (the warn diagnostic precedes the primary
record). -/
theorem c5_name_and_datetime_not_carried :
    lookupV ("name") cNameObj = Value.str ("x")
    ∧ lookupV ("datetime") cNameObj = Value.str ("fake")
    ∧ (handleLine js0 (Line.json ("t") (Value.obj cNameObj)) [] []).1.length = 2
    ∧ hasKey ("name")
        ((handleLine js0 (Line.json ("t") (Value.obj cNameObj)) [] []).1.getLastD [])
        = false
    ∧ lookupV ("datetime")
        ((handleLine js0 (Line.json ("t") (Value.obj cNameObj)) [] []).1.getLastD [])
        = Value.dt (DTime.ofMs 0) :=
  ⟨rfl, rfl, rfl, rfl, rfl⟩

/-- C5 amended: for a line parsing as an object with numeric time (within the
ECMAScript date range) and numeric level, the emitted primary record maps
the severity through the fixed table (any unlisted code giving unknown),
renames msg to message and err to error, converts the epoch time to the
datetime, and carries every other field through unchanged, except the
reserved name binding, which is stripped; a truthy name additionally emits a
preceding warn diagnostic. -/
theorem c5_field_mapping_amended (js : JsPrims) (s : String) (f : Rec)
    (rest : List Line) (b : Batch) (t lv : Int) (k : String) (n : Int)
    (ht : lookupV ("time") f = Value.num t)
    (hrange : t.natAbs ≤ 8640000000000000)
    (hl : lookupV ("level") f = Value.num lv)
    (hk : k ∉ (["msg", "time", "err", "level", "message", "error", "datetime", "name"] : List String))
    (hn : n ∉ ([60, 50, 40, 30, 20, 10] : List Int)) :
    handleLine js (Line.json s (Value.obj f)) rest b
      = (b ++ (if truthy (lookupV ("name") f)
                 then [nameWarnRecord (buildFinal js f t), eraseKey ("name") (buildFinal js f t)]
                 else [eraseKey ("name") (buildFinal js f t)]),
         rest)
    ∧ lookupV ("level") (eraseKey ("name") (buildFinal js f t)) = Value.str (levelNameOfNum lv)
    ∧ lookupV ("datetime") (eraseKey ("name") (buildFinal js f t)) = Value.dt (DTime.ofMs t)
    ∧ lookupV ("message") (eraseKey ("name") (buildFinal js f t)) = lookupV ("msg") f
    ∧ lookupV ("error") (eraseKey ("name") (buildFinal js f t)) = lookupV ("err") f
    ∧ hasKey ("name") (eraseKey ("name") (buildFinal js f t)) = false
    ∧ lookupV k (eraseKey ("name") (buildFinal js f t)) = lookupV k f
    ∧ levelNameOfNum 60 = "fatal" ∧ levelNameOfNum 50 = "error"
    ∧ levelNameOfNum 40 = "warn" ∧ levelNameOfNum 30 = "info"
    ∧ levelNameOfNum 20 = "debug" ∧ levelNameOfNum 10 = "trace"
    ∧ levelNameOfNum n = "unknown" := by
  have knMsg : ¬ k = "msg" := fun hx => hk (by rw [hx]; decide)
  have knTime : ¬ k = "time" := fun hx => hk (by rw [hx]; decide)
  have knErr : ¬ k = "err" := fun hx => hk (by rw [hx]; decide)
  have knLevel : ¬ k = "level" := fun hx => hk (by rw [hx]; decide)
  have knMessage : ¬ k = "message" := fun hx => hk (by rw [hx]; decide)
  have knError : ¬ k = "error" := fun hx => hk (by rw [hx]; decide)
  have knDatetime : ¬ k = "datetime" := fun hx => hk (by rw [hx]; decide)
  have knName : ¬ k = "name" := fun hx => hk (by rw [hx]; decide)
  have htk : hasKey ("time") f = true :=
    hasKey_of_lookupV_ne_undef ("time") f (by rw [ht]; exact fun hx => Value.noConfusion hx)
  have hlk : hasKey ("level") f = true :=
    hasKey_of_lookupV_ne_undef ("level") f (by rw [hl]; exact fun hx => Value.noConfusion hx)
  have hdm : dateMs js (lookupV ("time") f) = some t := by
    rw [ht]
    simp [dateMs, hrange]
  have hname : lookupV ("name") (buildFinal js f t) = lookupV ("name") f := by
    rw [buildFinal, lookupV_setKey, if_neg (show ("level" : String) ≠ "name" by decide),
        lookupV_setKey, if_neg (show ("datetime" : String) ≠ "name" by decide),
        lookupV_setKey, if_neg (show ("error" : String) ≠ "name" by decide),
        lookupV_setKey, if_neg (show ("message" : String) ≠ "name" by decide),
        lookupV_eraseKeys_notMem ("name") _ f (by decide)]
  have hmain : handleLine js (Line.json s (Value.obj f)) rest b
      = (handleLog (buildFinal js f t) b, rest) := by
    simp [handleLine, htk, hlk, hdm]
  refine ⟨?_, ?_, ?_, ?_, ?_, hasKey_eraseKey_self _ _, ?_, rfl, rfl, rfl, rfl, rfl, rfl, ?_⟩
  · by_cases htr : truthy (lookupV ("name") f) = true
    · rw [hmain, handleLog_push_warn (buildFinal js f t) b (by rw [hname]; exact htr)]
      simp [htr, eraseKey_nameWarnRecord]
    · have htr2 : truthy (lookupV ("name") f) = false := by
        cases hx : truthy (lookupV ("name") f)
        · rfl
        · exact absurd hx htr
      rw [hmain, handleLog_push (buildFinal js f t) b (by rw [hname]; exact htr2)]
      simp [htr2]
  · rw [lookupV_eraseKey_ne ("level") ("name") _ (by decide), buildFinal,
        lookupV_setKey, if_pos rfl, hl]
    rfl
  · rw [lookupV_eraseKey_ne ("datetime") ("name") _ (by decide), buildFinal,
        lookupV_setKey, if_neg (show ("level" : String) ≠ "datetime" by decide),
        lookupV_setKey, if_pos rfl]
  · rw [lookupV_eraseKey_ne ("message") ("name") _ (by decide), buildFinal,
        lookupV_setKey, if_neg (show ("level" : String) ≠ "message" by decide),
        lookupV_setKey, if_neg (show ("datetime" : String) ≠ "message" by decide),
        lookupV_setKey, if_neg (show ("error" : String) ≠ "message" by decide),
        lookupV_setKey, if_pos rfl]
  · rw [lookupV_eraseKey_ne ("error") ("name") _ (by decide), buildFinal,
        lookupV_setKey, if_neg (show ("level" : String) ≠ "error" by decide),
        lookupV_setKey, if_neg (show ("datetime" : String) ≠ "error" by decide),
        lookupV_setKey, if_pos rfl]
  · rw [lookupV_eraseKey_ne k ("name") _ knName, buildFinal,
        lookupV_setKey, if_neg (fun hx => knLevel hx.symm),
        lookupV_setKey, if_neg (fun hx => knDatetime hx.symm),
        lookupV_setKey, if_neg (fun hx => knError hx.symm),
        lookupV_setKey, if_neg (fun hx => knMessage hx.symm),
        lookupV_eraseKeys_notMem k _ f (by simp [knMsg, knTime, knErr, knLevel])]
  · have n60 : ¬ n = 60 := fun hx => hn (by rw [hx]; decide)
    have n50 : ¬ n = 50 := fun hx => hn (by rw [hx]; decide)
    have n40 : ¬ n = 40 := fun hx => hn (by rw [hx]; decide)
    have n30 : ¬ n = 30 := fun hx => hn (by rw [hx]; decide)
    have n20 : ¬ n = 20 := fun hx => hn (by rw [hx]; decide)
    have n10 : ¬ n = 10 := fun hx => hn (by rw [hx]; decide)
    simp [levelNameOfNum, n60, n50, n40, n30, n20, n10]

/-- Witness for the amended C5 at the scenario object of the spec. -/
theorem c5_field_mapping_amended_witness :
    lookupV ("time") cBoomObj = Value.num 1690000000000
    ∧ (1690000000000 : Int).natAbs ≤ 8640000000000000
    ∧ lookupV ("level") cBoomObj = Value.num 50
    ∧ ("custom" : String) ∉ (["msg", "time", "err", "level", "message", "error", "datetime", "name"] : List String)
    ∧ (45 : Int) ∉ ([60, 50, 40, 30, 20, 10] : List Int)
    ∧ (handleLine js0 (Line.json ("t") (Value.obj cBoomObj)) [] []
        = ([] ++ (if truthy (lookupV ("name") cBoomObj)
                    then [nameWarnRecord (buildFinal js0 cBoomObj 1690000000000),
                          eraseKey ("name") (buildFinal js0 cBoomObj 1690000000000)]
                    else [eraseKey ("name") (buildFinal js0 cBoomObj 1690000000000)]),
           [])
       ∧ lookupV ("level") (eraseKey ("name") (buildFinal js0 cBoomObj 1690000000000))
           = Value.str (levelNameOfNum 50)
       ∧ lookupV ("datetime") (eraseKey ("name") (buildFinal js0 cBoomObj 1690000000000))
           = Value.dt (DTime.ofMs 1690000000000)
       ∧ lookupV ("message") (eraseKey ("name") (buildFinal js0 cBoomObj 1690000000000))
           = lookupV ("msg") cBoomObj
       ∧ lookupV ("error") (eraseKey ("name") (buildFinal js0 cBoomObj 1690000000000))
           = lookupV ("err") cBoomObj
       ∧ hasKey ("name") (eraseKey ("name") (buildFinal js0 cBoomObj 1690000000000)) = false
       ∧ lookupV ("custom") (eraseKey ("name") (buildFinal js0 cBoomObj 1690000000000))
           = lookupV ("custom") cBoomObj
       ∧ levelNameOfNum 60 = "fatal" ∧ levelNameOfNum 50 = "error"
       ∧ levelNameOfNum 40 = "warn" ∧ levelNameOfNum 30 = "info"
       ∧ levelNameOfNum 20 = "debug" ∧ levelNameOfNum 10 = "trace"
       ∧ levelNameOfNum 45 = "unknown") :=
  ⟨rfl, by decide, rfl, by decide, by decide,
   c5_field_mapping_amended js0 ("t") cBoomObj [] [] 1690000000000 50 ("custom") 45
     rfl (by decide) rfl (by decide) (by decide)⟩

end CSLogs
